import Mathlib

/-!
Verification of the RustyTasks-UI core: a shallow embedding of the
folder/task data model (`src/task.rs`) and of the modal input wizard's
commit logic (`src/main.rs`), together with theorems settling the spec's
claims about them.

Conventions of the embedding:
* Rust `usize` lengths and indices become `Nat`; the `i32` arithmetic in
  `adjust_selected` becomes `Int` (the values involved are cursor positions
  and collection lengths, far below `2^31`, so the casts are exact).
* A Rust operation that can panic (`i32::clamp` with `min > max`,
  `Vec::remove` out of range) is embedded as an `Option`-returning
  function, `none` marking the panic.
* File-system effects (`read_or_create`, `save`) are embedded by passing
  the relevant world state explicitly: whether a home directory exists,
  the current contents of `~/.rtasks/tasks.json`, and whether a write
  would succeed; the outcome records the result and what was written.
-/

namespace RTasks

/-- `Status` from `src/task.rs` (lines 17-21): a label plus an ANSI color
index. The Rust field `color : u8` is embedded as a `Nat`; every value the
program ever stores in it comes from `u8` parsing and is `≤ 255`. -/
structure Status where
  status : String
  color : Nat
deriving DecidableEq, Repr

/-- `impl Default for Status` (task.rs lines 23-30). -/
def Status.default : Status := ⟨"Incomplete", 5⟩

/-- `Task` from `src/task.rs` (lines 39-44): the body text is the field
named `task` in the source. -/
structure Task where
  title : String
  task : String
  status : Status
deriving DecidableEq, Repr

/-- `#[derive(Default)]` for `Task`: empty strings, default status. -/
def Task.default : Task := ⟨"", "", Status.default⟩

/-- `Folder` from `src/task.rs` (lines 46-53): a recursive tree node.
`selected` is the selection cursor (`usize` in the source). Lean requires
a nested inductive rather than a structure because the node owns a list of
child folders. -/
inductive Folder where
  | mk (name : String) (tasks : List Task) (folders : List Folder) (selected : Nat)

/-- Field accessor for `Folder.name`. -/
def Folder.name : Folder → String
  | .mk n _ _ _ => n

/-- Field accessor for `Folder.tasks`. -/
def Folder.tasks : Folder → List Task
  | .mk _ ts _ _ => ts

/-- Field accessor for `Folder.folders`. -/
def Folder.folders : Folder → List Folder
  | .mk _ _ fs _ => fs

/-- Field accessor for `Folder.selected`. -/
def Folder.selected : Folder → Nat
  | .mk _ _ _ s => s

/-- `#[derive(Default)]` for `Folder` / `Folder::new()` (task.rs lines
55-58): empty name, no tasks, no subfolders, cursor 0. -/
def Folder.default : Folder := .mk "" [] [] 0

/-- `Folder::new_task` (task.rs lines 60-66): pushes the task onto the
`tasks` vector. The Rust function also returns a mutable reference to the
stored task; the embedding returns the updated folder, the reference being
unused by every caller. -/
def Folder.new_task : Folder → Task → Folder
  | .mk n ts fs s, t => .mk n (ts ++ [t]) fs s

/-- `Folder::new_folder` (task.rs lines 68-78): pushes a default folder
with the given name onto the `folders` vector. -/
def Folder.new_folder : Folder → String → Folder
  | .mk n ts fs s, nm => .mk n ts (fs ++ [.mk nm [] [] 0]) s

/-- `Folder::adjust_selected` (task.rs lines 172-176):
`max = tasks.len() + folders.len() - 1` in `i32` arithmetic, then
`selected = (selected + dist).clamp(0, max).unsigned_abs()`.
Rust's `i32::clamp` asserts `min <= max` and panics otherwise, so when the
folder is empty (`max = -1 < 0 = min`) the call panics: that case is
`none`. In the non-panicking case the clamped value is non-negative, so
`unsigned_abs` is `Int.toNat`. -/
def Folder.adjust_selected (f : Folder) (dist : Int) : Option Folder :=
  let mx : Int := (max (f.tasks.length : Int) 0) + (max (f.folders.length : Int) 0) - 1
  if 0 ≤ mx then
    some (.mk f.name f.tasks f.folders ((min (max ((f.selected : Int) + dist) 0) mx).toNat))
  else
    none

/-- Model of `Vec::remove(i)`: removes the element at index `i`, panicking
(`none`) when `i` is out of range. -/
def removeAt (i : Nat) (l : List α) : Option (List α) :=
  if i < l.length then some (l.eraseIdx i) else none

/-- `Folder::delete_selected` (task.rs lines 126-142): no-op when both
collections are empty; otherwise removes the subfolder at `selected` when
`selected < folders.len()`, else the task at `selected - folders.len()`;
then decrements the cursor when it was positive. -/
def Folder.delete_selected (f : Folder) : Option Folder :=
  if f.folders.isEmpty && f.tasks.isEmpty then
    some f
  else if f.selected < f.folders.length then
    (removeAt f.selected f.folders).map fun fs =>
      .mk f.name f.tasks fs (if f.selected > 0 then f.selected - 1 else f.selected)
  else
    (removeAt (f.selected - f.folders.length) f.tasks).map fun ts =>
      .mk f.name ts f.folders (if f.selected > 0 then f.selected - 1 else f.selected)

/-- `Folder::get_selected_task` (task.rs lines 158-170): `none` when both
collections are empty or the cursor points into the folder range,
otherwise `tasks.get(selected - folders.len())`. -/
def Folder.get_selected_task (f : Folder) : Option Task :=
  if f.folders.isEmpty && f.tasks.isEmpty then
    none
  else if f.selected < f.folders.length then
    none
  else
    f.tasks.get? (f.selected - f.folders.length)

/-- `Folder::get_selected_folder` (task.rs lines 178-184): `none` when the
cursor is at or past the folder range, otherwise `folders[selected]`
(the guard makes the index in range, so the embedding's `get?` always
hits `some`). -/
def Folder.get_selected_folder (f : Folder) : Option Folder :=
  if f.selected ≥ f.folders.length then
    none
  else
    f.folders.get? f.selected

/-- `Folder::get_folder` (task.rs lines 144-156): empty path returns the
node itself; otherwise the first subfolder whose name equals the popped
front segment is descended into (the `for` loop returns at the first
match), and if none matches the result is the error naming that segment
(the source formats it as `"Folder with name {item} doesn't exist"`; the
embedding keeps just the name). -/
def Folder.get_folder : Folder → List String → Except String Folder
  | g, [] => .ok g
  | f, item :: rest =>
    match f.folders.find? (fun g => g.name == item) with
    | some g => g.get_folder rest
    | none => .error item
termination_by _ p => p.length

/-!
Persistence (`src/task.rs` lines 80-124 and the serde attributes on
`Folder`, lines 46-53). The persisted JSON document of §6 of the spec is
embedded as `PFolder`: the serde derive serializes `name`, `tasks` and
`folders` recursively, while `selected` carries
`#[serde(skip_serializing, default)]`, so it is absent from the document
and comes back as `usize::default() = 0` on deserialization. Two equal
`PFolder` documents pretty-print to identical bytes, so byte-level
round-trip statements become equalities of `PFolder`.
-/

/-- The persisted shape of a folder: `name`, `tasks`, recursive
`folders`; no cursor. -/
inductive PFolder where
  | mk (name : String) (tasks : List Task) (folders : List PFolder)

/-- Field accessor for `PFolder.name`. -/
def PFolder.name : PFolder → String
  | .mk n _ _ => n

/-- Field accessor for `PFolder.tasks`. -/
def PFolder.tasks : PFolder → List Task
  | .mk _ ts _ => ts

/-- Field accessor for `PFolder.folders`. -/
def PFolder.folders : PFolder → List PFolder
  | .mk _ _ fs => fs

mutual

/-- Serialization of a `Folder` (serde derive with
`#[serde(skip_serializing)]` on `selected`): keeps `name` and `tasks`,
recurses into `folders`, drops the cursor. -/
def Folder.serialize : Folder → PFolder
  | .mk n ts fs _ => .mk n ts (serializeFolders fs)

/-- Serialization mapped over a list of subfolders. -/
def serializeFolders : List Folder → List PFolder
  | [] => []
  | f :: fs => Folder.serialize f :: serializeFolders fs

end

mutual

/-- Deserialization of a persisted document (serde derive with
`#[serde(default)]` on `selected`): rebuilds the node with cursor 0. -/
def PFolder.load : PFolder → Folder
  | .mk n ts ps => .mk n ts (loadFolders ps) 0

/-- Deserialization mapped over a list of persisted subfolders. -/
def loadFolders : List PFolder → List Folder
  | [] => []
  | p :: ps => PFolder.load p :: loadFolders ps

end

mutual

/-- Every cursor in the tree is 0 (the state of a freshly loaded tree). -/
def Folder.allSelectedZero : Folder → Bool
  | .mk _ _ fs s => s == 0 && allSelectedZeroFolders fs

/-- `Folder.allSelectedZero` over a list of subfolders. -/
def allSelectedZeroFolders : List Folder → Bool
  | [] => true
  | f :: fs => Folder.allSelectedZero f && allSelectedZeroFolders fs

end

/-- The error kinds of §7 of the spec, as produced by the persistence
code: a missing home directory (task.rs line 107), a failing parse of an
existing file (line 95), a failing file write (lines 102, 118-121). -/
inductive PersistError where
  | homeNotFound
  | parseFailure
  | ioFailure
deriving DecidableEq, Repr

/-- Outcome of a persistence call: the returned value and the document
written to `~/.rtasks/tasks.json` during the call, if any. -/
structure LoadOutcome where
  result : Except PersistError Folder
  written : Option PFolder

/-- `Folder::read_or_create` (task.rs lines 80-109), with the world state
passed explicitly: `home` is whether `directories::UserDirs::new()`
resolves, `file` the current contents of `tasks.json` (`none` when the
read fails, which the source treats as the file being absent), `parse`
stands for `serde_json::from_str` (a successful parse of the document
shape yields the `PFolder`, which deserializes with all cursors 0), and
`writeOk` is whether the `fs::write` of a fresh file would succeed.
With no home directory the call fails; with readable contents the parse
result is returned — `Err` on parse failure, no write, no fresh tree;
with no readable file a default folder is serialized, written out and
returned. -/
def Folder.read_or_create (home : Option Unit) (file : Option String)
    (parse : String → Option PFolder) (writeOk : Bool) : LoadOutcome :=
  match home with
  | none => ⟨.error .homeNotFound, none⟩
  | some _ =>
    match file with
    | some data =>
      match parse data with
      | some p => ⟨.ok p.load, none⟩
      | none => ⟨.error .parseFailure, none⟩
    | none =>
      if writeOk then
        ⟨.ok Folder.default, some Folder.default.serialize⟩
      else
        ⟨.error .ioFailure, none⟩

/-- Outcome of a save call: unit result plus what was written, if
anything. -/
structure SaveOutcome where
  result : Except PersistError Unit
  written : Option PFolder

/-- `Folder::save` (task.rs lines 112-124): when
`directories::UserDirs::new()` returns `None` the `if let` body is
skipped and the function falls through to `Ok(())` — success with nothing
written. With a home directory it writes the serialized tree, propagating
a write failure. -/
def Folder.save (home : Option Unit) (writeOk : Bool) (f : Folder) : SaveOutcome :=
  match home with
  | none => ⟨.ok (), none⟩
  | some _ =>
    if writeOk then ⟨.ok (), some f.serialize⟩ else ⟨.error .ioFailure, none⟩

/-!
The input wizard (`src/main.rs`). The claims all concern the
`InputStatus::Request` arm of the key dispatch (main.rs lines 286-364):
what `Esc` and `Enter` do while a text prompt is open. The state the arm
touches is the current folder (`cur_folder`, the node the path `selected`
resolves to), the wizard status, the text buffer's value and the pending
task `temp_task`; `handleRequestKey` embeds the arm over exactly that
state. Line editing by `tui_input` for any other key is abstracted to its
observable effect of changing the buffer's value (modelled as appending a
typed character); no claim depends on that branch.
-/

/-- `TaskStep` (main.rs lines 18-24). -/
inductive TaskStep where
  | Title
  | Details
  | Status
  | StatusColor
deriving DecidableEq, Repr

/-- `InputRequestType` (main.rs lines 45-52). -/
inductive InputRequestType where
  | NewFolder
  | RenameFolder
  | NewTask (step : TaskStep)
  | EditTask (step : TaskStep)
  | ConfirmDelete
deriving DecidableEq, Repr

/-- `InputStatus` (main.rs lines 37-43). `Empty` is the spec's `Idle`,
`Controls` its `HelpOverlay`, `New`/`Edit` its menus, `Request` its
`AwaitingField`. -/
inductive InputStatus where
  | Empty
  | Controls
  | Request (r : InputRequestType)
  | New
  | Edit
deriving DecidableEq, Repr

/-- The key codes the `Request` arm distinguishes. -/
inductive Key where
  | Esc
  | Enter
  | Char (c : Char)
  | Other
deriving DecidableEq, Repr

/-- The state mutated by the `Request` arm of `run` (main.rs lines
89-98): the current folder, the wizard status, the buffer value of the
`tui_input::Input` widget, and the pending task `temp_task`. -/
structure AppState where
  folder : Folder
  input_status : InputStatus
  input : String
  temp_task : Task

/-- In-place update of the element at an index, the identity when the
index is out of range (embeds mutation through `get_mut`-style access
that was already checked to be in range). -/
def modifyAt : List α → Nat → (α → α) → List α
  | [], _, _ => []
  | a :: l, 0, u => u a :: l
  | a :: l, n + 1, u => a :: modifyAt l n u

/-- Embeds the source pattern
`if let Some(cur_task) = cur_folder.get_selected_task() { *cur_task = … }`:
when `get_selected_task` (task.rs lines 158-170) yields a task, that task
— at index `selected - folders.len()` — is updated in place; otherwise
nothing changes. -/
def Folder.update_selected_task (f : Folder) (u : Task → Task) : Folder :=
  if f.folders.isEmpty && f.tasks.isEmpty then
    f
  else if f.selected < f.folders.length then
    f
  else
    match f.tasks.get? (f.selected - f.folders.length) with
    | some _ => .mk f.name (modifyAt f.tasks (f.selected - f.folders.length) u) f.folders f.selected
    | none => f

/-- Embeds the source pattern
`if let Some(folder) = cur_folder.get_selected_folder() { folder.name = … }`
(main.rs lines 297-301): when `get_selected_folder` (task.rs lines
178-184) yields a subfolder, its name is replaced. -/
def Folder.rename_selected (f : Folder) (nm : String) : Folder :=
  if f.selected ≥ f.folders.length then
    f
  else
    .mk f.name f.tasks
      (modifyAt f.folders f.selected (fun g => .mk nm g.tasks g.folders g.selected)) f.selected

/-- Rust's `str::parse::<u8>`: an optional leading `+`, then at least one
ASCII digit, value at most 255; everything else — empty input, a sign
alone, a minus sign, non-digits, overflow — is an error (`none`). -/
def parseU8 (s : String) : Option Nat :=
  let cs :=
    match s.toList with
    | '+' :: rest => rest
    | cs => cs
  if cs.isEmpty then
    none
  else if cs.all Char.isDigit then
    let v := cs.foldl (fun acc c => acc * 10 + (c.toNat - '0'.toNat)) 0
    if v ≤ 255 then some v else none
  else
    none

/-- Abstraction of `input.handle_event` (main.rs line 362) at the level
of the buffer's value: a typed character is appended, any other key is
ignored. Only the `Esc`/`Enter` arms matter to the claims. -/
def editKey (s : String) : Key → String
  | .Char c => s.push c
  | _ => s

/-- The `InputStatus::Request(request)` arm of the key dispatch in `run`
(main.rs lines 286-364), for a key received while the prompt for
`request` is open. `Esc` (lines 287-290) clears the buffer and returns to
`Empty`. `Enter` (lines 291-360) commits according to `request` — the
inner `match request` translated arm by arm — and then clears the buffer
(line 359); a commit whose `Vec::remove` panics is `none`. Any other key
goes to the line editor. -/
def handleRequestKey (st : AppState) (request : InputRequestType) (k : Key) :
    Option AppState :=
  match k with
  | .Esc => some { st with input := "", input_status := .Empty }
  | .Enter =>
    let committed : Option AppState :=
      match request with
      | .NewFolder =>
        some { st with folder := st.folder.new_folder st.input, input_status := .Empty }
      | .RenameFolder =>
        some { st with folder := st.folder.rename_selected st.input, input_status := .Empty }
      | .NewTask step =>
        match step with
        | .Title =>
          some { st with temp_task := { st.temp_task with title := st.input },
                         input_status := .Request (.NewTask .Details) }
        | .Details =>
          let t := { st.temp_task with task := st.input }
          some { st with temp_task := t, folder := st.folder.new_task t,
                         input_status := .Empty }
        | _ => some st
      | .EditTask step =>
        match step with
        | .Title =>
          some { st with
                   folder := st.folder.update_selected_task (fun tk => { tk with title := st.input }),
                   input_status := .Empty }
        | .Details =>
          some { st with
                   folder := st.folder.update_selected_task (fun tk => { tk with task := st.input }),
                   input_status := .Empty }
        | .Status =>
          some { st with
                   folder := st.folder.update_selected_task
                     (fun tk => { tk with status := { tk.status with status := st.input } }),
                   input_status := .Request (.EditTask .StatusColor) }
        | .StatusColor =>
          -- Source order (main.rs lines 340-347) is: select the task,
          -- then parse. Both guards only gate the single color write, so
          -- checking the parse first and writing through
          -- `update_selected_task` (which is the identity when no task is
          -- selected) yields the same folder.
          let f' :=
            match parseU8 st.input with
            | some c =>
              st.folder.update_selected_task
                (fun tk => { tk with status := { tk.status with color := c } })
            | none => st.folder
          some { st with folder := f', input_status := .Empty }
      | .ConfirmDelete =>
        if st.input.toUpper = "Y" then
          st.folder.delete_selected.map fun f' => { st with folder := f', input_status := .Empty }
        else
          some { st with input_status := .Empty }
    committed.map fun s => { s with input := "" }
  | _ => some { st with input := editKey st.input k }

/-- Spec-side description of a failing `resolve` (§4.1): the descent —
which at each level commits to the first child subfolder whose name
equals the segment — reaches a level where some segment has no matching
child; `e` is that unmatched segment. -/
inductive FailsAt : Folder → List String → String → Prop where
  | here (f : Folder) (item : String) (rest : List String) :
      f.folders.find? (fun g => g.name == item) = none →
      FailsAt f (item :: rest) item
  | there (f g : Folder) (item e : String) (rest : List String) :
      f.folders.find? (fun g => g.name == item) = some g →
      FailsAt g rest e →
      FailsAt f (item :: rest) e

/-! Helper lemmas. -/

@[simp]
theorem Folder.name_mk (n : String) (ts : List Task) (fs : List Folder) (s : Nat) :
    (Folder.mk n ts fs s).name = n := rfl

@[simp]
theorem Folder.tasks_mk (n : String) (ts : List Task) (fs : List Folder) (s : Nat) :
    (Folder.mk n ts fs s).tasks = ts := rfl

@[simp]
theorem Folder.folders_mk (n : String) (ts : List Task) (fs : List Folder) (s : Nat) :
    (Folder.mk n ts fs s).folders = fs := rfl

@[simp]
theorem Folder.selected_mk (n : String) (ts : List Task) (fs : List Folder) (s : Nat) :
    (Folder.mk n ts fs s).selected = s := rfl

theorem Folder.eta (f : Folder) : Folder.mk f.name f.tasks f.folders f.selected = f := by
  cases f
  rfl

theorem Folder.new_task_eq (f : Folder) (t : Task) :
    f.new_task t = Folder.mk f.name (f.tasks ++ [t]) f.folders f.selected := by
  cases f
  rfl

theorem modifyAt_length (l : List α) (i : Nat) (u : α → α) :
    (modifyAt l i u).length = l.length := by
  induction l generalizing i with
  | nil => rfl
  | cons a l ih =>
    cases i with
    | zero => rfl
    | succ n => simp [modifyAt, ih]

theorem modifyAt_get?_self (l : List α) (i : Nat) (u : α → α) (a : α)
    (h : l.get? i = some a) : (modifyAt l i u).get? i = some (u a) := by
  induction l generalizing i with
  | nil => simp at h
  | cons b l ih =>
    cases i with
    | zero => simp_all [modifyAt]
    | succ n => simp_all [modifyAt, ih]

theorem modifyAt_get?_ne (l : List α) (i : Nat) (u : α → α) (j : Nat)
    (h : j ≠ i) : (modifyAt l i u).get? j = l.get? j := by
  induction l generalizing i j with
  | nil => rfl
  | cons b l ih =>
    cases i with
    | zero =>
      cases j with
      | zero => exact absurd rfl h
      | succ m => simp [modifyAt]
    | succ n =>
      cases j with
      | zero => simp [modifyAt]
      | succ m => simpa [modifyAt] using ih n m (by omega)

theorem parseU8_le_255 (s : String) (c : Nat) (h : parseU8 s = some c) : c ≤ 255 := by
  unfold parseU8 at h
  split at h <;> simp_all <;> omega

/-- C1: `moveSelection` (`Folder::adjust_selected`) keeps the cursor in
`[0, total-1]` when `total > 0`, but the claim's `total == 0` case is
wrong about the code: on an empty folder the call computes
`(cursor + delta).clamp(0, -1)` and `i32::clamp` panics when `min > max`,
so the call does not leave the cursor at 0 — it panics (embedded as
`none`). The first conjunct evaluates the code on the failing input (the
initial empty root with delta 1, i.e. a Down key press right after first
start); the second proves the claim's `total > 0` half. -/
theorem C1_moveSelection_clamp :
    ((Folder.mk "" [] [] 0).adjust_selected 1 = none) ∧
    (∀ (f : Folder) (d : Int), 0 < f.folders.length + f.tasks.length →
      ∃ f', f.adjust_selected d = some f' ∧
        f'.selected < f.folders.length + f.tasks.length ∧
        f'.name = f.name ∧ f'.tasks = f.tasks ∧ f'.folders = f.folders) := by
  constructor
  · rfl
  · intro f d h
    unfold Folder.adjust_selected
    have hmx : (0 : Int) ≤ max (f.tasks.length : Int) 0 + max (f.folders.length : Int) 0 - 1 := by
      simp only [max_def]
      split_ifs <;> omega
    rw [if_pos hmx]
    refine ⟨_, rfl, ?_, by simp, by simp, by simp⟩
    simp only [Folder.selected_mk, max_def, min_def]
    split_ifs <;> omega

/-- Witness for the hypothesis-carrying half of `C1_moveSelection_clamp`:
a folder with one task, delta 5. -/
theorem C1_moveSelection_clamp_witness :
    ∃ f', (Folder.mk "A" [Task.default] [] 0).adjust_selected 5 = some f' ∧
      f'.selected < (Folder.mk "A" [Task.default] [] 0).folders.length +
        (Folder.mk "A" [Task.default] [] 0).tasks.length ∧
      f'.name = "A" ∧ f'.tasks = [Task.default] ∧ f'.folders = [] :=
  C1_moveSelection_clamp.2 (Folder.mk "A" [Task.default] [] 0) 5 (by decide)

theorem get?_some_of_lt (l : List α) (n : Nat) (h : n < l.length) :
    ∃ a, l.get? n = some a := by
  cases hg : l.get? n with
  | none => exact absurd (List.get?_eq_none.1 hg) (by omega)
  | some a => exact ⟨a, rfl⟩

theorem not_both_empty_of_pos (f : Folder)
    (h : 0 < f.folders.length + f.tasks.length) :
    (f.folders.isEmpty && f.tasks.isEmpty) = false := by
  cases hf : f.folders with
  | cons _ _ => rfl
  | nil =>
    cases ht : f.tasks with
    | cons _ _ => simp [hf, ht]
    | nil => rw [hf, ht] at h; simp at h

/-- C2: with a valid cursor, `deleteSelected` removes exactly one element
— the subfolder at the cursor when `cursor < len(subfolders)`, else the
task at `cursor - len(subfolders)` — so the total shrinks by exactly one;
the cursor is decremented when positive and left at 0 otherwise, which
lands it inside the revised bound; and on two empty collections the call
is a no-op. -/
theorem C2_deleteSelected (f : Folder) :
    (f.folders = [] ∧ f.tasks = [] → f.delete_selected = some f) ∧
    (f.selected < f.folders.length + f.tasks.length →
      ∃ f', f.delete_selected = some f' ∧
        f'.name = f.name ∧
        f'.folders.length + f'.tasks.length + 1 = f.folders.length + f.tasks.length ∧
        (f.selected < f.folders.length →
          f'.folders = f.folders.eraseIdx f.selected ∧ f'.tasks = f.tasks) ∧
        (f.folders.length ≤ f.selected →
          f'.tasks = f.tasks.eraseIdx (f.selected - f.folders.length) ∧
          f'.folders = f.folders) ∧
        f'.selected = (if 0 < f.selected then f.selected - 1 else 0) ∧
        (f'.folders.length + f'.tasks.length = 0 → f'.selected = 0) ∧
        (0 < f'.folders.length + f'.tasks.length →
          f'.selected < f'.folders.length + f'.tasks.length)) := by
  constructor
  · rintro ⟨h1, h2⟩
    simp [Folder.delete_selected, h1, h2]
  · intro h
    unfold Folder.delete_selected
    have hne : ¬((f.folders.isEmpty && f.tasks.isEmpty) = true) := by
      rw [not_both_empty_of_pos f (by omega)]
      simp
    rw [if_neg hne]
    by_cases hsel : f.selected < f.folders.length
    · rw [if_pos hsel]
      have hrem : removeAt f.selected f.folders = some (f.folders.eraseIdx f.selected) := by
        simp [removeAt, hsel]
      rw [hrem]
      have hlen := List.length_eraseIdx_of_lt hsel
      refine ⟨_, rfl, by simp, ?_, fun _ => ⟨by simp, by simp⟩, fun hc => absurd hsel (by omega),
        ?_, ?_, ?_⟩ <;>
        simp only [Option.map_some, Folder.selected_mk, Folder.folders_mk, Folder.tasks_mk,
          hlen] <;>
        first
        | omega
        | (split_ifs <;> omega)
    · rw [if_neg hsel]
      have hidx : f.selected - f.folders.length < f.tasks.length := by omega
      have hrem : removeAt (f.selected - f.folders.length) f.tasks =
          some (f.tasks.eraseIdx (f.selected - f.folders.length)) := by
        simp [removeAt, hidx]
      rw [hrem]
      have hlen := List.length_eraseIdx_of_lt hidx
      refine ⟨_, rfl, by simp, ?_, fun hc => absurd hc hsel,
        fun _ => ⟨by simp, by simp⟩, ?_, ?_, ?_⟩ <;>
        simp only [Option.map_some, Folder.selected_mk, Folder.folders_mk, Folder.tasks_mk,
          hlen] <;>
        first
        | omega
        | (split_ifs <;> omega)

/-- Witness for `C2_deleteSelected`: a folder with subfolders `A`, `B`
and one task, cursor on `B`. -/
theorem C2_deleteSelected_witness :
    ((Folder.mk "" [] [] 0).delete_selected = some (Folder.mk "" [] [] 0)) ∧
    ∃ f', (Folder.mk "r" [Task.default] [Folder.mk "A" [] [] 0, Folder.mk "B" [] [] 0] 1).delete_selected = some f' ∧
      f'.name = "r" ∧
      f'.folders.length + f'.tasks.length + 1 = 3 ∧
      (1 < 2 → f'.folders = [Folder.mk "A" [] [] 0] ∧ f'.tasks = [Task.default]) ∧
      (2 ≤ 1 → f'.tasks = [] ∧ f'.folders = [Folder.mk "A" [] [] 0, Folder.mk "B" [] [] 0]) ∧
      f'.selected = (if 0 < 1 then 0 else 0) ∧
      (f'.folders.length + f'.tasks.length = 0 → f'.selected = 0) ∧
      (0 < f'.folders.length + f'.tasks.length → f'.selected < f'.folders.length + f'.tasks.length) :=
  ⟨(C2_deleteSelected (Folder.mk "" [] [] 0)).1 ⟨rfl, rfl⟩,
   (C2_deleteSelected (Folder.mk "r" [Task.default]
      [Folder.mk "A" [] [] 0, Folder.mk "B" [] [] 0] 1)).2 (by decide)⟩

/-- C3: with a valid cursor (`total > 0`), `selectedFolder` and
`selectedTask` partition the unified listing: the folder is defined
exactly when `cursor < len(subfolders)`, the task exactly when
`cursor ≥ len(subfolders)` and `cursor - len(subfolders) < len(tasks)`,
they are never both defined, and exactly one of the two is defined. -/
theorem C3_selection_partition (f : Folder)
    (h : f.selected < f.folders.length + f.tasks.length) :
    (f.get_selected_folder.isSome ↔ f.selected < f.folders.length) ∧
    (f.get_selected_task.isSome ↔
      f.folders.length ≤ f.selected ∧ f.selected - f.folders.length < f.tasks.length) ∧
    ¬(f.get_selected_folder.isSome ∧ f.get_selected_task.isSome) ∧
    (f.get_selected_folder.isSome ∨ f.get_selected_task.isSome) := by
  unfold Folder.get_selected_folder Folder.get_selected_task
  have hne : ¬((f.folders.isEmpty && f.tasks.isEmpty) = true) := by
    rw [not_both_empty_of_pos f (by omega)]
    simp
  rw [if_neg hne]
  by_cases hsel : f.selected < f.folders.length
  · obtain ⟨g, hg⟩ := get?_some_of_lt f.folders f.selected hsel
    rw [if_neg (show ¬f.selected ≥ f.folders.length by omega), if_pos hsel, hg]
    refine ⟨by simp [hsel], by simp; omega, by simp, by simp⟩
  · obtain ⟨tk, htk⟩ := get?_some_of_lt f.tasks (f.selected - f.folders.length) (by omega)
    rw [if_pos (show f.selected ≥ f.folders.length by omega), if_neg hsel, htk]
    refine ⟨by simp [hsel], by simp; omega, by simp, by simp⟩

/-- Witness for `C3_selection_partition`: one subfolder, one task,
cursor on the task. -/
theorem C3_selection_partition_witness :
    ((Folder.mk "r" [Task.default] [Folder.mk "A" [] [] 0] 1).get_selected_folder.isSome ↔ (1 : Nat) < 1) ∧
    ((Folder.mk "r" [Task.default] [Folder.mk "A" [] [] 0] 1).get_selected_task.isSome ↔
      (1 : Nat) ≤ 1 ∧ (1 - 1 : Nat) < 1) ∧
    ¬((Folder.mk "r" [Task.default] [Folder.mk "A" [] [] 0] 1).get_selected_folder.isSome ∧
      (Folder.mk "r" [Task.default] [Folder.mk "A" [] [] 0] 1).get_selected_task.isSome) ∧
    ((Folder.mk "r" [Task.default] [Folder.mk "A" [] [] 0] 1).get_selected_folder.isSome ∨
      (Folder.mk "r" [Task.default] [Folder.mk "A" [] [] 0] 1).get_selected_task.isSome) :=
  C3_selection_partition (Folder.mk "r" [Task.default] [Folder.mk "A" [] [] 0] 1) (by decide)

theorem lt_of_get?_some (l : List α) (n : Nat) {a : α} (h : l.get? n = some a) :
    n < l.length := by
  by_contra hc
  rw [List.get?_eq_none.2 (by omega)] at h
  cases h

theorem get_selected_task_spec (f : Folder) (tk : Task)
    (h : f.get_selected_task = some tk) :
    f.folders.length ≤ f.selected ∧
    f.tasks.get? (f.selected - f.folders.length) = some tk := by
  unfold Folder.get_selected_task at h
  split at h
  · cases h
  · split at h
    · cases h
    · next hlt => exact ⟨by omega, h⟩

theorem update_selected_task_eq (f : Folder) (tk : Task) (u : Task → Task)
    (h : f.get_selected_task = some tk) :
    f.update_selected_task u =
      Folder.mk f.name (modifyAt f.tasks (f.selected - f.folders.length) u)
        f.folders f.selected := by
  obtain ⟨hge, hget⟩ := get_selected_task_spec f tk h
  have hlt := lt_of_get?_some _ _ hget
  unfold Folder.update_selected_task
  have hne : ¬((f.folders.isEmpty && f.tasks.isEmpty) = true) := by
    cases ht : f.tasks with
    | nil => rw [ht] at hlt; simp at hlt
    | cons a l => simp [ht]
  rw [if_neg hne, if_neg (show ¬f.selected < f.folders.length by omega)]
  simp only [hget]

theorem get_selected_task_update (f : Folder) (tk : Task) (u : Task → Task)
    (h : f.get_selected_task = some tk) :
    (f.update_selected_task u).get_selected_task = some (u tk) := by
  obtain ⟨hge, hget⟩ := get_selected_task_spec f tk h
  have hlt := lt_of_get?_some _ _ hget
  rw [update_selected_task_eq f tk u h]
  unfold Folder.get_selected_task
  simp only [Folder.folders_mk, Folder.tasks_mk, Folder.selected_mk]
  have hlen := modifyAt_length f.tasks (f.selected - f.folders.length) u
  have hne : ¬((f.folders.isEmpty &&
      (modifyAt f.tasks (f.selected - f.folders.length) u).isEmpty) = true) := by
    cases hm : modifyAt f.tasks (f.selected - f.folders.length) u with
    | nil => rw [hm] at hlen; simp at hlen; omega
    | cons a l => simp
  rw [if_neg hne, if_neg (show ¬f.selected < f.folders.length by omega)]
  exact modifyAt_get?_self _ _ _ _ hget

/-- C4 as stated is wrong about one point: after the Details commit the
code never resets `temp_task` to its default — `temp_task.title` and
`temp_task.task` still hold the committed strings (main.rs lines 311-315
assign and push but reset nothing). Scenario B's inputs exhibit it:
running the chain from the initial state with `"Buy milk"` then
`"2% milk"` leaves the pending task equal to the committed task, which is
not `Task::default()`. -/
theorem C4_newTask_counterexample :
    ((handleRequestKey ⟨Folder.default, .Request (.NewTask .Title), "Buy milk", Task.default⟩
        (.NewTask .Title) .Enter).bind
      (fun s1 => handleRequestKey { s1 with input := "2% milk" } (.NewTask .Details) .Enter)).map
        AppState.temp_task = some ⟨"Buy milk", "2% milk", Status.default⟩ ∧
    (⟨"Buy milk", "2% milk", Status.default⟩ : Task) ≠ Task.default :=
  ⟨rfl, by decide⟩

/-- C4 (amended): committing buffer `t` at the `NewTask{Title}` step
stashes `t` into the pending task's title, advances to the Details step,
clears the buffer and adds no task; committing buffer `b` at the Details
step appends to the current folder exactly one task
`{title: t, body: b, status: {"Incomplete", 5}}` (the pending task's
status field, which no execution step ever writes, stays at its default)
and returns the wizard to `Idle` — but the pending task is NOT reset to
default: it is left holding the committed title and body. -/
theorem C4_newTask_chain (st : AppState) (t b : String)
    (h : st.temp_task.status = Status.default) :
    ∃ st1 st2,
      handleRequestKey { st with input := t } (.NewTask .Title) .Enter = some st1 ∧
      st1.folder = st.folder ∧
      st1.input_status = .Request (.NewTask .Details) ∧
      st1.input = "" ∧
      st1.temp_task.title = t ∧
      handleRequestKey { st1 with input := b } (.NewTask .Details) .Enter = some st2 ∧
      st2.folder.name = st.folder.name ∧
      st2.folder.folders = st.folder.folders ∧
      st2.folder.selected = st.folder.selected ∧
      st2.folder.tasks = st.folder.tasks ++ [⟨t, b, Status.default⟩] ∧
      st2.input_status = .Empty ∧
      st2.input = "" ∧
      st2.temp_task = ⟨t, b, Status.default⟩ := by
  refine ⟨⟨st.folder, .Request (.NewTask .Details), "",
        ⟨t, st.temp_task.task, st.temp_task.status⟩⟩,
      ⟨st.folder.new_task ⟨t, b, st.temp_task.status⟩, .Empty, "",
        ⟨t, b, st.temp_task.status⟩⟩,
      rfl, rfl, rfl, rfl, rfl, rfl, ?_, ?_, ?_, ?_, rfl, rfl, ?_⟩
  · simp [Folder.new_task_eq]
  · simp [Folder.new_task_eq]
  · simp [Folder.new_task_eq]
  · simp [Folder.new_task_eq, h]
  · rw [h]

/-- Witness for `C4_newTask_chain`: the initial state (default pending
task), Scenario B's inputs. -/
theorem C4_newTask_chain_witness :
    ∃ st1 st2,
      handleRequestKey { (⟨Folder.default, .Request (.NewTask .Title), "", Task.default⟩ : AppState)
          with input := "Buy milk" } (.NewTask .Title) .Enter = some st1 ∧
      st1.folder = Folder.default ∧
      st1.input_status = .Request (.NewTask .Details) ∧
      st1.input = "" ∧
      st1.temp_task.title = "Buy milk" ∧
      handleRequestKey { st1 with input := "2% milk" } (.NewTask .Details) .Enter = some st2 ∧
      st2.folder.name = Folder.default.name ∧
      st2.folder.folders = Folder.default.folders ∧
      st2.folder.selected = Folder.default.selected ∧
      st2.folder.tasks = Folder.default.tasks ++ [⟨"Buy milk", "2% milk", Status.default⟩] ∧
      st2.input_status = .Empty ∧
      st2.input = "" ∧
      st2.temp_task = ⟨"Buy milk", "2% milk", Status.default⟩ :=
  C4_newTask_chain ⟨Folder.default, .Request (.NewTask .Title), "", Task.default⟩
    "Buy milk" "2% milk" rfl

/-- C5 as stated is wrong about one point: `Esc` (main.rs lines 287-290)
clears the buffer and returns to `Idle` but does not touch `temp_task`,
so the pending-task scratch value is not reset to default: aborting at
the Details step keeps the stashed title. -/
theorem C5_esc_counterexample :
    (handleRequestKey ⟨Folder.default, .Request (.NewTask .Details), "buf",
        ⟨"x", "y", Status.default⟩⟩ (.NewTask .Details) .Esc).map AppState.temp_task =
      some ⟨"x", "y", Status.default⟩ ∧
    (⟨"x", "y", Status.default⟩ : Task) ≠ Task.default :=
  ⟨rfl, by decide⟩

/-- C5 (amended): pressing `Esc` in any `AwaitingField` state clears the
text buffer and transitions the wizard to `Idle`, with no FolderTree
mutation — the current folder (hence every node of the tree) is exactly
the one before the key — and the pending-task scratch value is left
unchanged (it is NOT reset to default). -/
theorem C5_esc_aborts (st : AppState) (r : InputRequestType) :
    handleRequestKey st r .Esc = some ⟨st.folder, .Empty, "", st.temp_task⟩ := rfl

/-- C6: committing the `EditTask{StatusColor}` step parses the buffer as
an integer 0-255; on success the selected task's status color is set to
the parsed value (and only that task, only that field, changes); on parse
failure the folder is untouched; in both cases the wizard returns to
`Idle` with a cleared buffer and the pending task unchanged. -/
theorem C6_statusColor_commit (st : AppState) (tk : Task)
    (h : st.folder.get_selected_task = some tk) :
    ∃ st', handleRequestKey st (.EditTask .StatusColor) .Enter = some st' ∧
      st'.input_status = .Empty ∧ st'.input = "" ∧ st'.temp_task = st.temp_task ∧
      st'.folder.name = st.folder.name ∧
      st'.folder.folders = st.folder.folders ∧
      st'.folder.selected = st.folder.selected ∧
      (parseU8 st.input = none → st'.folder = st.folder) ∧
      (∀ c, parseU8 st.input = some c →
        c ≤ 255 ∧
        st'.folder.get_selected_task = some ⟨tk.title, tk.task, ⟨tk.status.status, c⟩⟩ ∧
        ∀ i, i ≠ st.folder.selected - st.folder.folders.length →
          st'.folder.tasks.get? i = st.folder.tasks.get? i) := by
  cases hp : parseU8 st.input with
  | none =>
    refine ⟨⟨st.folder, .Empty, "", st.temp_task⟩, ?_, rfl, rfl, rfl, rfl, rfl, rfl,
        fun _ => rfl, fun c hc => by cases hc⟩
    simp [handleRequestKey, hp]
  | some c =>
    refine ⟨⟨st.folder.update_selected_task
        (fun t => { t with status := { t.status with color := c } }), .Empty, "",
        st.temp_task⟩, ?_, rfl, rfl, rfl, ?_, ?_, ?_, ?_, ?_⟩
    · simp [handleRequestKey, hp]
    · simp [update_selected_task_eq st.folder tk _ h]
    · simp [update_selected_task_eq st.folder tk _ h]
    · simp [update_selected_task_eq st.folder tk _ h]
    · intro hc; cases hc
    · intro c' hc'
      cases hc'
      refine ⟨parseU8_le_255 st.input c hp, ?_, ?_⟩
      · exact get_selected_task_update st.folder tk _ h
      · intro i hi
        show (st.folder.update_selected_task _).tasks.get? i = _
        rw [update_selected_task_eq st.folder tk _ h]
        simp only [Folder.tasks_mk]
        exact modifyAt_get?_ne _ _ _ _ hi

/-- Witness for `C6_statusColor_commit`: a folder with one selected task,
buffer `"9"`. -/
theorem C6_statusColor_commit_witness :
    ∃ st', handleRequestKey ⟨Folder.mk "r" [⟨"a", "b", ⟨"Done", 5⟩⟩] [] 0,
        .Request (.EditTask .StatusColor), "9", Task.default⟩
        (.EditTask .StatusColor) .Enter = some st' ∧
      st'.input_status = .Empty ∧ st'.input = "" ∧ st'.temp_task = Task.default ∧
      st'.folder.name = "r" ∧
      st'.folder.folders = ([] : List Folder) ∧
      st'.folder.selected = 0 ∧
      (parseU8 "9" = none → st'.folder = Folder.mk "r" [⟨"a", "b", ⟨"Done", 5⟩⟩] [] 0) ∧
      (∀ c, parseU8 "9" = some c →
        c ≤ 255 ∧
        st'.folder.get_selected_task = some ⟨"a", "b", ⟨"Done", c⟩⟩ ∧
        ∀ i, i ≠ 0 → st'.folder.tasks.get? i = [(⟨"a", "b", ⟨"Done", 5⟩⟩ : Task)].get? i) :=
  C6_statusColor_commit ⟨Folder.mk "r" [⟨"a", "b", ⟨"Done", 5⟩⟩] [] 0,
    .Request (.EditTask .StatusColor), "9", Task.default⟩ ⟨"a", "b", ⟨"Done", 5⟩⟩ rfl

/-- C7: `read_or_create` returns `ParseFailure` whenever the stored
file's contents fail to parse, and then neither writes nor fabricates a
fresh tree; a successful parse returns exactly the parsed tree; only when
the file is absent does it synthesize the empty root, write it out, and
return it. -/
theorem C7_load_parse_failure_is_fatal (parse : String → Option PFolder)
    (data : String) (w : Bool) :
    (parse data = none →
      Folder.read_or_create (some ()) (some data) parse w =
        ⟨.error .parseFailure, none⟩) ∧
    (∀ p, parse data = some p →
      Folder.read_or_create (some ()) (some data) parse w = ⟨.ok p.load, none⟩) ∧
    (Folder.read_or_create (some ()) none parse true =
      ⟨.ok Folder.default, some Folder.default.serialize⟩) := by
  refine ⟨fun hp => ?_, fun p hp => ?_, rfl⟩ <;>
    simp [Folder.read_or_create, hp]

/-- Witness for `C7_load_parse_failure_is_fatal`: a parse that rejects
every input, applied to the contents `"not json"`. -/
theorem C7_load_parse_failure_is_fatal_witness :
    Folder.read_or_create (some ()) (some "not json") (fun _ => none) true =
      ⟨.error .parseFailure, none⟩ :=
  (C7_load_parse_failure_is_fatal (fun _ => none) "not json" true).1 rfl

mutual

theorem serialize_load : ∀ p : PFolder, (PFolder.load p).serialize = p
  | .mk n ts ps => by
    rw [PFolder.load, Folder.serialize]
    rw [serializeFolders_loadFolders ps]

theorem serializeFolders_loadFolders : ∀ ps : List PFolder,
    serializeFolders (loadFolders ps) = ps
  | [] => rfl
  | p :: ps => by
    rw [loadFolders, serializeFolders, serialize_load p, serializeFolders_loadFolders ps]

end

mutual

theorem load_allSelectedZero : ∀ p : PFolder, (PFolder.load p).allSelectedZero = true
  | .mk n ts ps => by
    rw [PFolder.load, Folder.allSelectedZero]
    simp [loadFolders_allSelectedZero ps]

theorem loadFolders_allSelectedZero : ∀ ps : List PFolder,
    allSelectedZeroFolders (loadFolders ps) = true
  | [] => rfl
  | p :: ps => by
    rw [loadFolders, allSelectedZeroFolders]
    simp [load_allSelectedZero p, loadFolders_allSelectedZero ps]

end

/-- C8: serialization drops exactly the cursor (it preserves `name` and
`tasks` and recurses into `folders`), deserialization resets every cursor
in the tree to 0, and serializing a loaded document gives the document
back — so the second save of `save(load(save(tree)))` is byte-identical
to the first. -/
theorem C8_round_trip :
    (∀ p : PFolder, (PFolder.load p).serialize = p) ∧
    (∀ p : PFolder, (PFolder.load p).allSelectedZero = true) ∧
    (∀ f : Folder, (Folder.serialize f).name = f.name ∧
      (Folder.serialize f).tasks = f.tasks ∧
      (Folder.serialize f).folders = serializeFolders f.folders) ∧
    (∀ f : Folder, (PFolder.load (Folder.serialize f)).serialize = Folder.serialize f) :=
  ⟨serialize_load, load_allSelectedZero,
   fun f => by cases f with | mk n ts fs s => exact ⟨rfl, rfl, rfl⟩,
   fun f => serialize_load (Folder.serialize f)⟩

/-- C9: `resolve` (`get_folder`) with an empty path returns the node
itself; with a non-empty path it descends into the first child subfolder
(in storage order) whose name equals the head segment; and it returns
`.error e` exactly when the greedy descent reaches a segment `e` with no
matching child (the `FailsAt` predicate). -/
theorem C9_resolve_first_match :
    (∀ f : Folder, f.get_folder [] = .ok f) ∧
    (∀ (f g : Folder) (item : String) (rest : List String),
      f.folders.find? (fun h => h.name == item) = some g →
      f.get_folder (item :: rest) = g.get_folder rest) ∧
    (∀ (f : Folder) (item : String) (rest : List String),
      f.folders.find? (fun h => h.name == item) = none →
      f.get_folder (item :: rest) = .error item) ∧
    (∀ (f : Folder) (p : List String) (e : String),
      f.get_folder p = .error e ↔ FailsAt f p e) := by
  have hstep : ∀ (f : Folder) (item : String) (rest : List String),
      f.get_folder (item :: rest) =
        match f.folders.find? (fun h => h.name == item) with
        | some g => g.get_folder rest
        | none => .error item := fun f item rest => by
    rw [Folder.get_folder]
  refine ⟨fun f => by rw [Folder.get_folder], ?_, ?_, ?_⟩
  · intro f g item rest hfind
    rw [hstep, hfind]
  · intro f item rest hfind
    rw [hstep, hfind]
  · intro f p e
    constructor
    · intro herr
      induction p generalizing f with
      | nil => rw [Folder.get_folder] at herr; cases herr
      | cons item rest ih =>
        rw [hstep] at herr
        cases hfind : f.folders.find? (fun h => h.name == item) with
        | none =>
          rw [hfind] at herr
          injection herr with h2
          subst h2
          exact FailsAt.here f item rest hfind
        | some g =>
          rw [hfind] at herr
          exact FailsAt.there f g item e rest hfind (ih g herr)
    · intro hf
      induction hf with
      | here f item rest hfind => rw [hstep, hfind]
      | there f g item e rest hfind _ ih => rw [hstep, hfind]; exact ih

/-- Witness for `C9_resolve_first_match`: a root with two subfolders both
named `A`; the lookup descends into the first and finds `B` there. -/
theorem C9_resolve_first_match_witness :
    (Folder.mk "" [] [Folder.mk "A" [] [Folder.mk "B" [] [] 0] 0, Folder.mk "A" [] [] 0] 0).get_folder
        ["A"] =
      (Folder.mk "A" [] [Folder.mk "B" [] [] 0] 0).get_folder [] ∧
    (Folder.mk "B" [] [] 0).get_folder ["C"] = .error "C" :=
  ⟨C9_resolve_first_match.2.1
      (Folder.mk "" [] [Folder.mk "A" [] [Folder.mk "B" [] [] 0] 0, Folder.mk "A" [] [] 0] 0)
      (Folder.mk "A" [] [Folder.mk "B" [] [] 0] 0) "A" [] rfl,
   C9_resolve_first_match.2.2.1 (Folder.mk "B" [] [] 0) "C" [] rfl⟩

/-- C10 (implicit in task.rs lines 112-124): when the home directory
cannot be resolved, `save` returns success without writing anything —
the tree is silently not persisted — whereas at startup `read_or_create`
treats the same condition as a fatal error. -/
theorem C10_save_silently_skips_without_home :
    (∀ (f : Folder) (w : Bool), Folder.save none w f = ⟨.ok (), none⟩) ∧
    (∀ (file : Option String) (parse : String → Option PFolder) (w : Bool),
      Folder.read_or_create none file parse w = ⟨.error .homeNotFound, none⟩) :=
  ⟨fun _ _ => rfl, fun _ _ _ => rfl⟩

end RTasks
